import Mathlib

/-!
# KResearch core — shallow embedding and verification

This file embeds, in Lean 4, the mechanical core of the KResearch
repository and proves (or refutes) the spec's testable properties:

* `CitationManager` (src/services/geminiClient.ts, citation section):
  deduplicating numbered citation registry with usage tracking and
  in-text mark rendering;
* `ApiIntervalManager` (rate-adaptation tracker): suggested-delay
  computation from a recorded 429-error history;
* `executeWithRetry` (src/services/geminiClient.ts): key-rotating
  retry loop with classified errors and exponential backoff;
* `generateAcademicOutline` (src/services/search.ts, defensive
  variant): the two-persona outline negotiation loop.

Stateful TypeScript classes become explicit state-passing functions;
the network side (fetch, the LLM) is an oracle supplied as input; JS
numbers are rationals (`ℚ`) where fractional values matter and `Nat`
otherwise.
-/

namespace KResearch

/-! ## Citation registry (src/services/geminiClient.ts, `CitationManager`)

`Citation` mirrors the TS interface: only `url` and `title` are always
present; `id`, `accessDate` and `timesCited` are filled in by the
manager when a citation is stored. -/

structure Citation where
  url : String
  title : String
  id : Option Nat := none
  accessDate : Option String := none
  timesCited : Option Nat := none
deriving Repr, DecidableEq

/-- JS `a || b` on an optional string field: `undefined` and `""` are
falsy and fall through to the default. -/
def jsOrString (a : Option String) (b : String) : String :=
  match a with
  | some s => if s = "" then b else s
  | none => b

/-- A parsed URL as produced by the platform `URL` constructor:
`protocol` keeps its trailing colon (`"https:"`), `hostname` is the
(already lowercased) host, `pathname` starts with `/`. -/
structure UrlObj where
  protocol : String
  hostname : String
  pathname : String
deriving Repr, DecidableEq

def isSchemeChar (c : Char) : Bool :=
  c.isAlphanum || c == '+' || c == '-' || c == '.'

def isJsWhitespace (c : Char) : Bool :=
  c == ' ' || c == '\t' || c == '\n' || c == '\r'

/-- `String.prototype.trim` (restricted to ASCII whitespace), on the
character list. -/
def trimChars (l : List Char) : List Char :=
  ((l.dropWhile isJsWhitespace).reverse.dropWhile isJsWhitespace).reverse

/-- JS `trim()` on strings. -/
def jsTrim (s : String) : String :=
  ⟨trimChars s.data⟩

/-- JS `toLowerCase()` (restricted to ASCII case mapping). -/
def jsToLowerCase (s : String) : String :=
  ⟨s.data.map Char.toLower⟩

/-- Split a character list at the first occurrence of `"://"`. -/
def splitAtSchemeSep : List Char → Option (List Char × List Char)
  | ':' :: '/' :: '/' :: rest => some ([], rest)
  | c :: rest =>
      match splitAtSchemeSep rest with
      | some (pre, post) => some (c :: pre, post)
      | none => none
  | [] => none

/-- Model of the platform WHATWG `new URL(url)` constructor (a browser
builtin, not repository code), restricted to hierarchical
`scheme://host/path?query#fragment` URLs: leading/trailing whitespace
is stripped, the scheme must start with a letter, the host must be
non-empty and free of spaces; anything else fails to parse (the
constructor throws, modelled as `none`). Query and fragment are
dropped here because `normalizeUrl` never reads them. -/
def parseUrl (url : String) : Option UrlObj :=
  let s := trimChars url.data
  match splitAtSchemeSep s with
  | none => none
  | some (scheme, rest) =>
      if scheme.length > 0 && (scheme.headD ' ').isAlpha && scheme.all isSchemeChar &&
          rest.length > 0 then
        let host := rest.takeWhile (fun c => !(c == '/' || c == '?' || c == '#'))
        let afterHost := rest.drop host.length
        if host.length > 0 && host.all (fun c => !(c == ' ' || c == '@' || c == ':')) then
          let path := afterHost.takeWhile (fun c => !(c == '?' || c == '#'))
          some { protocol := ⟨scheme.map Char.toLower⟩ ++ ":",
                 hostname := ⟨host.map Char.toLower⟩,
                 pathname := if path.isEmpty then "/" else ⟨path⟩ }
        else none
      else none

/-- `CitationManager.normalizeUrl`: scheme + lowercased host + path for
parseable URLs; for unparseable URLs the `catch` branch returns the
lowercased, trimmed raw string. -/
def normalizeUrl (url : String) : String :=
  match parseUrl url with
  | some u => u.protocol ++ "//" ++ jsToLowerCase u.hostname ++ u.pathname
  | none => jsTrim (jsToLowerCase url)

/-- `CitationManager` state: the `Map<string, Citation>` keyed by
normalized URL (a JS `Map` preserves insertion order, modelled as an
association list appended at the tail) plus the id counter. -/
structure CitationManagerState where
  citations : List (String × Citation)
  citationCounter : Nat
deriving Repr, DecidableEq

def CitationManagerState.init : CitationManagerState :=
  { citations := [], citationCounter := 1 }

def CitationManagerState.getCitationKey (c : Citation) : String :=
  normalizeUrl c.url

/-- `CitationManager.addCitation`: dedup on the normalized-URL key,
returning the existing id when present; otherwise store with the next
counter value, usage count 0, and a default access date when the field
is absent (JS `citation.accessDate || today`). Returns the new state
and the assigned id. -/
def CitationManagerState.addCitation (st : CitationManagerState) (c : Citation)
    (today : String) : CitationManagerState × Nat :=
  let key := CitationManagerState.getCitationKey c
  match st.citations.lookup key with
  | some existing => (st, existing.id.getD 0)
  | none =>
      let newCitation : Citation :=
        { c with id := some st.citationCounter,
                 accessDate := some (jsOrString c.accessDate today),
                 timesCited := some 0 }
      ({ citations := st.citations ++ [(key, newCitation)],
         citationCounter := st.citationCounter + 1 },
       st.citationCounter)

/-- `CitationManager.addCitations`: pointwise add, threading state. -/
def CitationManagerState.addCitations (st : CitationManagerState)
    (cs : List Citation) (today : String) : CitationManagerState × List Nat :=
  match cs with
  | [] => (st, [])
  | c :: rest =>
      let (st₁, id₁) := st.addCitation c today
      let (st₂, ids) := st₁.addCitations rest today
      (st₂, id₁ :: ids)

/-- `CitationManager.getCitationById`: first stored citation (in map
iteration order) whose `id` matches. -/
def CitationManagerState.getCitationById (st : CitationManagerState) (id : Nat) :
    Option Citation :=
  (st.citations.find? (fun p => p.2.id = some id)).map (·.2)

/-- In-place mutation of the first stored citation whose id matches:
`citation.timesCited = (citation.timesCited || 0) + 1`. A missing id
leaves the map unchanged (silently ignored). -/
def bumpTimesCited : List (String × Citation) → Nat → List (String × Citation)
  | [], _ => []
  | (k, c) :: rest, id =>
      if c.id = some id then
        (k, { c with timesCited := some (c.timesCited.getD 0 + 1) }) :: rest
      else
        (k, c) :: bumpTimesCited rest id

/-- `CitationManager.recordCitationUsage`: for each id in order, bump
the usage count of the stored record it resolves to, ignoring ids that
do not resolve. -/
def CitationManagerState.recordCitationUsage (st : CitationManagerState)
    (ids : List Nat) : CitationManagerState :=
  ids.foldl (fun s id => { s with citations := bumpTimesCited s.citations id }) st

def rangeStr (s e : Nat) : String :=
  if s = e then toString s else toString s ++ "-" ++ toString e

/-- The range-merging loop of `generateMultipleInTextCitations`,
written as a recursion over the tail of the sorted id list with the
current run `[start, en]` as accumulator. -/
def buildRanges (start en : Nat) : List Nat → List String
  | [] => [rangeStr start en]
  | x :: xs =>
      if x = en + 1 then buildRanges start x xs
      else rangeStr start en :: buildRanges x x xs

/-- The string computed by `generateMultipleInTextCitations`: a single
id renders `[a]`; several ids are sorted ascending
(`[...ids].sort((a, b) => a - b)`, modelled by a stable ascending
sort) and merged into consecutive ranges. -/
def renderMarkString (ids : List Nat) : String :=
  match ids with
  | [] => ""
  | [i] => "[" ++ toString i ++ "]"
  | _ =>
      match ids.insertionSort (· ≤ ·) with
      | [] => "[" ++ String.intercalate ", " [] ++ "]"
      | x :: xs => "[" ++ String.intercalate ", " (buildRanges x x xs) ++ "]"

/-- `CitationManager.generateMultipleInTextCitations`: empty input
renders `""` without touching usage counts; otherwise usage is
recorded for every id and the bracketed mark is rendered (the string
depends only on the ids, so it is factored out as
`renderMarkString`). -/
def CitationManagerState.generateMultipleInTextCitations
    (st : CitationManagerState) (ids : List Nat) : String × CitationManagerState :=
  match ids with
  | [] => ("", st)
  | _ => (renderMarkString ids, st.recordCitationUsage ids)

/-- `CitationManager.generateInTextCitation`. -/
def CitationManagerState.generateInTextCitation (st : CitationManagerState)
    (id : Nat) : String × CitationManagerState :=
  (("[" ++ toString id ++ "]"), st.recordCitationUsage [id])

def CitationManagerState.getAllCitations (st : CitationManagerState) : List Citation :=
  (st.citations.map (·.2)).insertionSort (fun a b => a.id.getD 0 ≤ b.id.getD 0)

def CitationManagerState.getCitedCitations (st : CitationManagerState) : List Citation :=
  st.getAllCitations.filter (fun c => c.timesCited.getD 0 > 0)

def CitationManagerState.getUncitedCitations (st : CitationManagerState) : List Citation :=
  st.getAllCitations.filter (fun c => c.timesCited.getD 0 = 0)

/-- The registry state reached from a fresh manager by a sequence of adds. -/
def addSeq (cs : List Citation) (today : String) : CitationManagerState :=
  (CitationManagerState.init.addCitations cs today).1

/-! ### Registry invariant and helper lemmas -/

theorem lookup_eq_none_iff {β : Type} (k : String) (l : List (String × β)) :
    l.lookup k = none ↔ k ∉ l.map Prod.fst := by
  induction l with
  | nil => simp [List.lookup]
  | cons hd tl ih =>
      obtain ⟨a, b⟩ := hd
      by_cases hk : k = a
      · subst hk
        simp [List.lookup]
      · simp [List.lookup, beq_eq_false_iff_ne.mpr hk, ih, hk]

theorem lookup_append_of_eq_none {β : Type} (k : String) (l₁ l₂ : List (String × β))
    (h : l₁.lookup k = none) : (l₁ ++ l₂).lookup k = l₂.lookup k := by
  induction l₁ with
  | nil => simp
  | cons hd tl ih =>
      obtain ⟨a, b⟩ := hd
      by_cases hk : k = a
      · subst hk
        simp [List.lookup] at h
      · simp only [List.cons_append, List.lookup, beq_eq_false_iff_ne.mpr hk] at h ⊢
        exact ih h

theorem mem_of_lookup_eq_some {β : Type} {k : String} {l : List (String × β)} {v : β}
    (h : l.lookup k = some v) : (k, v) ∈ l := by
  induction l with
  | nil => simp [List.lookup] at h
  | cons hd tl ih =>
      obtain ⟨a, b⟩ := hd
      by_cases hk : k = a
      · subst hk
        simp only [List.lookup, beq_self_eq_true] at h
        simp [← Option.some_inj.mp h]
      · simp only [List.lookup, beq_eq_false_iff_ne.mpr hk] at h
        exact List.mem_cons_of_mem _ (ih h)

/-- Invariant of every reachable registry state: stored ids are exactly
`1, 2, …, n` in insertion order, the dedup keys are pairwise distinct,
and the counter sits one past the last assigned id. -/
def CitationInv (st : CitationManagerState) : Prop :=
  st.citations.map (fun p => (p.2).id) =
      (List.range' 1 st.citations.length).map some ∧
  (st.citations.map Prod.fst).Nodup ∧
  st.citationCounter = st.citations.length + 1

theorem citationInv_init : CitationInv CitationManagerState.init := by
  simp [CitationInv, CitationManagerState.init]

/-- Reduction of `addCitation` when the dedup key is already stored. -/
theorem addCitation_of_lookup_some (st : CitationManagerState) (c : Citation) (d : String)
    (e : Citation) (hl : st.citations.lookup (CitationManagerState.getCitationKey c) = some e) :
    st.addCitation c d = (st, e.id.getD 0) := by
  unfold CitationManagerState.addCitation
  simp [hl]

/-- Reduction of `addCitation` when the dedup key is fresh. -/
theorem addCitation_of_lookup_none (st : CitationManagerState) (c : Citation) (d : String)
    (hl : st.citations.lookup (CitationManagerState.getCitationKey c) = none) :
    st.addCitation c d =
      ({ citations := st.citations ++ [(CitationManagerState.getCitationKey c,
            { c with id := some st.citationCounter,
                     accessDate := some (jsOrString c.accessDate d),
                     timesCited := some 0 })],
         citationCounter := st.citationCounter + 1 }, st.citationCounter) := by
  unfold CitationManagerState.addCitation
  simp [hl]

theorem citationInv_addCitation (st : CitationManagerState) (c : Citation) (d : String)
    (h : CitationInv st) : CitationInv (st.addCitation c d).1 := by
  obtain ⟨hids, hkeys, hcnt⟩ := h
  cases hl : st.citations.lookup (CitationManagerState.getCitationKey c) with
  | some e =>
      rw [addCitation_of_lookup_some st c d e hl]
      exact ⟨hids, hkeys, hcnt⟩
  | none =>
      rw [addCitation_of_lookup_none st c d hl]
      refine ⟨?_, ?_, ?_⟩
      · simp only [List.map_append, List.length_append, List.map_cons, List.map_nil,
          List.length_cons, List.length_nil, hids]
        rw [List.range'_concat]
        simp only [List.map_append, List.map_cons, List.map_nil]
        have h1 : 1 + 1 * st.citations.length = st.citations.length + 1 := by omega
        rw [h1, hcnt]
      · simp only [List.map_append, List.map_cons, List.map_nil]
        rw [List.nodup_append]
        refine ⟨hkeys, List.nodup_singleton _, ?_⟩
        intro a ha hb
        simp only [List.mem_singleton] at hb
        subst hb
        exact (lookup_eq_none_iff _ _).1 hl ha
      · simp [hcnt]

theorem citationInv_addCitations (cs : List Citation) (today : String)
    (st : CitationManagerState) (h : CitationInv st) :
    CitationInv (st.addCitations cs today).1 := by
  induction cs generalizing st with
  | nil => simpa [CitationManagerState.addCitations] using h
  | cons c rest ih =>
      simp only [CitationManagerState.addCitations]
      exact ih _ (citationInv_addCitation st c today h)

theorem citationInv_addSeq (cs : List Citation) (today : String) :
    CitationInv (addSeq cs today) :=
  citationInv_addCitations cs today _ citationInv_init

/-- Every stored record in a reachable state carries an assigned id. -/
theorem stored_id_isSome {st : CitationManagerState} (h : CitationInv st)
    {k : String} {e : Citation} (hm : (k, e) ∈ st.citations) : e.id.isSome := by
  obtain ⟨hids, -, -⟩ := h
  have hmem : e.id ∈ st.citations.map (fun p => (p.2).id) :=
    List.mem_map_of_mem (fun p => (p.2).id) hm
  rw [hids] at hmem
  obtain ⟨m, -, hm'⟩ := List.mem_map.1 hmem
  rw [← hm']
  rfl

/-- **C5.** For every sequence of `addCitation` calls on a fresh
registry, exactly one record is stored per distinct normalized URL
(the dedup keys are pairwise distinct), the ids assigned are the
strictly increasing integers `1, 2, …, n` in first-seen insertion
order, and adding a citation whose normalized URL is already present
returns the stored record's id without modifying the state. -/
theorem citation_registry_unique_increasing_ids (cs : List Citation) (today : String) :
    ((addSeq cs today).citations.map (fun p => (p.2).id) =
        (List.range' 1 (addSeq cs today).citations.length).map some) ∧
    ((addSeq cs today).citations.map Prod.fst).Nodup ∧
    (∀ (c : Citation) (d : String),
      ((addSeq cs today).citations.lookup (CitationManagerState.getCitationKey c)).isSome →
      ((addSeq cs today).addCitation c d).1 = addSeq cs today ∧
      some (((addSeq cs today).addCitation c d).2) =
        ((addSeq cs today).citations.lookup
          (CitationManagerState.getCitationKey c)).bind (fun e => e.id)) := by
  have hinv := citationInv_addSeq cs today
  obtain ⟨hids, hkeys, hcnt⟩ := hinv
  refine ⟨hids, hkeys, ?_⟩
  intro c d hmem
  obtain ⟨e, he⟩ := Option.isSome_iff_exists.1 hmem
  rw [addCitation_of_lookup_some (addSeq cs today) c d e he, he]
  have hm : (CitationManagerState.getCitationKey c, e) ∈ (addSeq cs today).citations :=
    mem_of_lookup_eq_some he
  have hsome : e.id.isSome := stored_id_isSome ⟨hids, hkeys, hcnt⟩ hm
  obtain ⟨m, hm'⟩ := Option.isSome_iff_exists.1 hsome
  simp [hm']

/-- Witness for C5: two distinct URLs get ids 1 and 2; re-adding the
first URL with a different host capitalization returns id 1 and leaves
the registry untouched. -/
theorem citation_registry_unique_increasing_ids_witness :
    (((addSeq [{ url := "https://A.com/x", title := "t1" },
               { url := "https://b.com/y", title := "t2" }] "2026-01-01").addCitation
        { url := "https://a.COM/x", title := "dup" } "2026-01-02").1 =
      addSeq [{ url := "https://A.com/x", title := "t1" },
              { url := "https://b.com/y", title := "t2" }] "2026-01-01") ∧
    some (((addSeq [{ url := "https://A.com/x", title := "t1" },
                    { url := "https://b.com/y", title := "t2" }] "2026-01-01").addCitation
        { url := "https://a.COM/x", title := "dup" } "2026-01-02").2) = some 1 := by
  have h := (citation_registry_unique_increasing_ids
      [{ url := "https://A.com/x", title := "t1" },
       { url := "https://b.com/y", title := "t2" }] "2026-01-01").2.2
      { url := "https://a.COM/x", title := "dup" } "2026-01-02" (by decide)
  exact ⟨h.1, by rw [h.2]; decide⟩

/-- Appending a fresh binding is found by a later lookup. -/
theorem lookup_append_singleton_self {β : Type} (k : String) (l : List (String × β)) (v : β)
    (h : l.lookup k = none) : (l ++ [(k, v)]).lookup k = some v := by
  rw [lookup_append_of_eq_none k l [(k, v)] h]
  simp [List.lookup]

/-- **C10.** `addCitation` is total over arbitrary URL strings: when
the URL does not parse, `normalizeUrl` falls back to the lowercased,
trimmed raw string as the dedup key, so two adds whose unparseable
URLs agree up to ASCII case and surrounding whitespace deduplicate to
one id — the second add returns the first add's id and leaves the
registry unchanged. -/
theorem addCitation_total_unparseable (st : CitationManagerState) (c₁ c₂ : Citation)
    (d₁ d₂ : String)
    (h₁ : parseUrl c₁.url = none) (h₂ : parseUrl c₂.url = none)
    (heq : jsTrim (jsToLowerCase c₁.url) = jsTrim (jsToLowerCase c₂.url)) :
    normalizeUrl c₁.url = jsTrim (jsToLowerCase c₁.url) ∧
    ((st.addCitation c₁ d₁).1.addCitation c₂ d₂).1 = (st.addCitation c₁ d₁).1 ∧
    ((st.addCitation c₁ d₁).1.addCitation c₂ d₂).2 = (st.addCitation c₁ d₁).2 := by
  have hn₁ : normalizeUrl c₁.url = jsTrim (jsToLowerCase c₁.url) := by
    unfold normalizeUrl
    rw [h₁]
  have hn₂ : normalizeUrl c₂.url = jsTrim (jsToLowerCase c₂.url) := by
    unfold normalizeUrl
    rw [h₂]
  have hkey : CitationManagerState.getCitationKey c₂ = CitationManagerState.getCitationKey c₁ := by
    unfold CitationManagerState.getCitationKey
    rw [hn₁, hn₂, heq]
  refine ⟨hn₁, ?_⟩
  cases hl : st.citations.lookup (CitationManagerState.getCitationKey c₁) with
  | some e =>
      rw [addCitation_of_lookup_some st c₁ d₁ e hl]
      have hl₂ : st.citations.lookup (CitationManagerState.getCitationKey c₂) = some e := by
        rw [hkey]; exact hl
      rw [addCitation_of_lookup_some st c₂ d₂ e hl₂]
      exact ⟨rfl, rfl⟩
  | none =>
      rw [addCitation_of_lookup_none st c₁ d₁ hl]
      set newC : Citation :=
        { c₁ with id := some st.citationCounter,
                  accessDate := some (jsOrString c₁.accessDate d₁),
                  timesCited := some 0 } with hnewC
      have hl₂ : (st.citations ++ [(CitationManagerState.getCitationKey c₁, newC)]).lookup
          (CitationManagerState.getCitationKey c₂) = some newC := by
        rw [hkey]
        exact lookup_append_singleton_self _ _ _ hl
      have := addCitation_of_lookup_some
        ⟨st.citations ++ [(CitationManagerState.getCitationKey c₁, newC)],
         st.citationCounter + 1⟩ c₂ d₂ newC hl₂
      rw [this]
      exact ⟨rfl, rfl⟩

/-- Witness for C10: `"Not A URL!"` and `"  not a url!  "` both fail
to parse and agree up to case and surrounding whitespace, so the
second add is a no-op returning the same id. -/
theorem addCitation_total_unparseable_witness :
    ((CitationManagerState.init.addCitation
          { url := "Not A URL!", title := "t1" } "2026-01-01").1.addCitation
        { url := "  not a url!  ", title := "t2" } "2026-01-02").1 =
      (CitationManagerState.init.addCitation
          { url := "Not A URL!", title := "t1" } "2026-01-01").1 ∧
    ((CitationManagerState.init.addCitation
          { url := "Not A URL!", title := "t1" } "2026-01-01").1.addCitation
        { url := "  not a url!  ", title := "t2" } "2026-01-02").2 = 1 := by
  have h := addCitation_total_unparseable CitationManagerState.init
    { url := "Not A URL!", title := "t1" } { url := "  not a url!  ", title := "t2" }
    "2026-01-01" "2026-01-02" (by decide) (by decide) (by decide)
  refine ⟨h.2.1, ?_⟩
  rw [h.2.2]
  decide

/-! ### Usage-count lemmas -/

/-- Effect of one `bumpTimesCited` pass on the record a lookup-by-id
resolves to: bumping id `j` adds one to the usage count seen for
`i = j` and leaves the record seen for `i ≠ j` unchanged. -/
theorem find?_bumpTimesCited (l : List (String × Citation)) (i j : Nat) (c : Citation)
    (h : (l.find? (fun p => p.2.id = some i)).map (·.2) = some c) :
    ((bumpTimesCited l j).find? (fun p => p.2.id = some i)).map (·.2) =
      some (if i = j then { c with timesCited := some (c.timesCited.getD 0 + 1) } else c) := by
  induction l with
  | nil => simp at h
  | cons hd tl ih =>
      obtain ⟨k, chd⟩ := hd
      by_cases hcj : chd.id = some j
      · by_cases hci : chd.id = some i
        · have hij : i = j := by
            rw [hci] at hcj
            exact Option.some_inj.mp hcj
          have hc : c = chd := by
            rw [List.find?_cons_of_pos _ (by simpa using hci)] at h
            simpa using h.symm
          subst hc hij
          simp only [bumpTimesCited, if_pos hci]
          rw [List.find?_cons_of_pos _ (by simpa using hci)]
          simp
        · have hij : i ≠ j := by
            intro hij
            rw [hij] at hci
            exact hci hcj
          simp only [bumpTimesCited, if_pos hcj]
          rw [List.find?_cons_of_neg _ (by simpa using hci)] at h
          rw [List.find?_cons_of_neg _ (by simpa using hci)]
          rw [h, if_neg hij]
      · simp only [bumpTimesCited, if_neg hcj]
        by_cases hci : chd.id = some i
        · have hij : i ≠ j := by
            intro hij
            rw [hij] at hci
            exact hcj hci
          rw [List.find?_cons_of_pos _ (by simpa using hci)] at h
          rw [List.find?_cons_of_pos _ (by simpa using hci)]
          simpa [if_neg hij] using h
        · rw [List.find?_cons_of_neg _ (by simpa using hci)] at h
          rw [List.find?_cons_of_neg _ (by simpa using hci)]
          exact ih h

/-- `recordCitationUsage` adds, to the usage count of the record id
`i` resolves to, exactly the number of occurrences of `i` in the id
list, leaving every other field unchanged. -/
theorem recordUsage_count (st : CitationManagerState) (ids : List Nat) (i : Nat) (c : Citation)
    (h : st.getCitationById i = some c) :
    ∃ c', (st.recordCitationUsage ids).getCitationById i = some c' ∧
      c'.timesCited.getD 0 = c.timesCited.getD 0 + ids.count i ∧
      c'.url = c.url ∧ c'.title = c.title ∧ c'.id = c.id := by
  induction ids generalizing st c with
  | nil =>
      refine ⟨c, ?_, by simp, rfl, rfl, rfl⟩
      simpa [CitationManagerState.recordCitationUsage] using h
  | cons a rest ih =>
      have hstep : st.recordCitationUsage (a :: rest) =
          CitationManagerState.recordCitationUsage
            ⟨bumpTimesCited st.citations a, st.citationCounter⟩ rest := rfl
      have hbump := find?_bumpTimesCited st.citations i a c h
      have hbump' : CitationManagerState.getCitationById
          ⟨bumpTimesCited st.citations a, st.citationCounter⟩ i =
          some (if i = a then { c with timesCited := some (c.timesCited.getD 0 + 1) } else c) :=
        hbump
      obtain ⟨c', h1, h2, h3, h4, h5⟩ := ih _ _ hbump'
      rw [hstep]
      refine ⟨c', h1, ?_, ?_, ?_, ?_⟩
      · rw [h2]
        by_cases hia : i = a
        · subst hia
          simp [List.count_cons]
          omega
        · simp [hia, List.count_cons]
      · rw [h3]; by_cases hia : i = a <;> simp [hia]
      · rw [h4]; by_cases hia : i = a <;> simp [hia]
      · rw [h5]; by_cases hia : i = a <;> simp [hia]

/-- **C6.** The in-text mark renderer sorts ids ascending and merges
consecutive runs: `[1,2,3,5]` renders `"[1-3, 5]"` and `[7]` renders
`"[7]"` from any registry state; rendering a non-empty id list records
usage of exactly those ids; and `recordCitationUsage` increments the
usage count of the record each id resolves to by exactly its number of
occurrences (so by exactly 1 for each of the distinct ids above),
touching no other field. -/
theorem renderMark_and_recordUsage :
    (∀ st : CitationManagerState,
        (st.generateMultipleInTextCitations [1, 2, 3, 5]).1 = "[1-3, 5]" ∧
        (st.generateMultipleInTextCitations [7]).1 = "[7]") ∧
    (∀ (st : CitationManagerState) (ids : List Nat),
        ids ≠ [] → (st.generateMultipleInTextCitations ids).2 = st.recordCitationUsage ids) ∧
    (∀ (st : CitationManagerState) (ids : List Nat) (i : Nat) (c : Citation),
        st.getCitationById i = some c →
        ∃ c', (st.recordCitationUsage ids).getCitationById i = some c' ∧
          c'.timesCited.getD 0 = c.timesCited.getD 0 + ids.count i ∧
          c'.url = c.url ∧ c'.title = c.title ∧ c'.id = c.id) := by
  refine ⟨fun st => ⟨rfl, rfl⟩, ?_, recordUsage_count⟩
  intro st ids hne
  match ids with
  | a :: rest => rfl

/-- Witness for C6: on a registry holding one citation with id 1 and
usage 0, rendering ids `[1,2,3,5]` yields `"[1-3, 5]"` and recording
their usage raises record 1's count to exactly 1. -/
theorem renderMark_and_recordUsage_witness :
    (CitationManagerState.init.generateMultipleInTextCitations [1, 2, 3, 5]).1 = "[1-3, 5]" ∧
    ∃ c', ((addSeq [{ url := "https://a.com/x", title := "A" }]
          "2026-01-01").recordCitationUsage [1, 2, 3, 5]).getCitationById 1 = some c' ∧
      c'.timesCited.getD 0 = 1 := by
  refine ⟨(renderMark_and_recordUsage.1 CitationManagerState.init).1, ?_⟩
  obtain ⟨c', h1, h2, -, -, -⟩ :=
    renderMark_and_recordUsage.2.2
      (addSeq [{ url := "https://a.com/x", title := "A" }] "2026-01-01") [1, 2, 3, 5] 1
      { url := "https://a.com/x", title := "A", id := some 1,
        accessDate := some "2026-01-01", timesCited := some 0 }
      (by decide)
  exact ⟨c', h1, by rw [h2]; decide⟩

/-! ## Rate-adaptation tracker (`ApiIntervalManager`, src/unnamed/part_002)

The tracker is pure state: a list of 429-error timestamps (ring of
capacity 10) consulted by `calculateDelay`. Timestamps are integer
milliseconds (`Date.now()`); delays are rationals (JS numbers). -/

inductive ResearchMode
  | Balanced
  | DeepDive
  | Fast
  | UltraFast
deriving Repr, DecidableEq

structure ApiIntervalConfig where
  baseDelayMs : ℚ
  dynamicAdjustment : Bool
  deepDiveMultiplier : ℚ
  balancedMultiplier : ℚ
  quickMultiplier : ℚ
  errorThreshold : Nat
  errorMultiplier : ℚ
deriving Repr, DecidableEq

/-- `DEFAULT_SETTINGS.apiIntervalConfig` (src/services/settingsService.ts). -/
def defaultApiIntervalConfig : ApiIntervalConfig :=
  { baseDelayMs := 15000
    dynamicAdjustment := true
    deepDiveMultiplier := 12/10
    balancedMultiplier := 11/10
    quickMultiplier := 1
    errorThreshold := 3
    errorMultiplier := 15/10 }

/-- JS `Math.round x = ⌊x + 0.5⌋` (exact on JS semantics for finite
values). -/
def jsRound (x : ℚ) : ℤ :=
  Int.floor (x + 1/2)

/-- `ApiIntervalManager.record429Error`: push the current timestamp,
keeping at most `MAX_ERROR_HISTORY = 10` entries (shift the oldest). -/
def record429Error (hist : List ℤ) (now : ℤ) : List ℤ :=
  let h := hist ++ [now]
  if h.length > 10 then h.drop 1 else h

/-- `ApiIntervalManager.getRecentErrorCount`: number of recorded
timestamps strictly newer than five minutes ago. -/
def getRecentErrorCount (hist : List ℤ) (now : ℤ) : Nat :=
  (hist.filter (fun t => now - 5 * 60 * 1000 < t)).length

/-- The mode `switch` in `calculateDelay`: `DeepDive` and `Balanced`
scale the base; the `'Quick'` case is dead code (no `ResearchMode`
value matches it), so `Fast` and `UltraFast` fall through with
multiplier 1. -/
def modeAdjustedBase (mode : ResearchMode) (config : ApiIntervalConfig) : ℚ :=
  match mode with
  | .DeepDive => config.baseDelayMs * config.deepDiveMultiplier
  | .Balanced => config.baseDelayMs * config.balancedMultiplier
  | .Fast => config.baseDelayMs
  | .UltraFast => config.baseDelayMs

/-- The effective per-mode multiplier implemented by the `switch`. -/
def modeMultiplier (mode : ResearchMode) (config : ApiIntervalConfig) : ℚ :=
  match mode with
  | .DeepDive => config.deepDiveMultiplier
  | .Balanced => config.balancedMultiplier
  | .Fast => 1
  | .UltraFast => 1

/-- `ApiIntervalManager.calculateDelay`: mode-scaled base delay,
escalated by `errorMultiplier` when dynamic adjustment is on and the
recent-error count meets the threshold, clamped to 20000 ms and
rounded to the nearest integer millisecond. -/
def calculateDelay (mode : ResearchMode) (config : ApiIntervalConfig)
    (hist : List ℤ) (now : ℤ) : ℤ :=
  let baseDelay := modeAdjustedBase mode config
  let baseDelay :=
    if config.dynamicAdjustment then
      if config.errorThreshold ≤ getRecentErrorCount hist now then
        baseDelay * config.errorMultiplier
      else baseDelay
    else baseDelay
  let maxDelay : ℚ := 20000
  let finalDelay := min baseDelay maxDelay
  jsRound finalDelay

theorem modeAdjustedBase_eq (mode : ResearchMode) (config : ApiIntervalConfig) :
    modeAdjustedBase mode config = config.baseDelayMs * modeMultiplier mode config := by
  cases mode <;> simp [modeAdjustedBase, modeMultiplier]

theorem jsRound_le_of_le {x y : ℚ} (h : x ≤ y) : jsRound x ≤ jsRound y :=
  Int.floor_mono (by linarith)

theorem jsRound_intCast (k : ℤ) : jsRound (k : ℚ) = k := by
  unfold jsRound
  rw [Int.floor_eq_iff]
  constructor
  · norm_num
  · norm_num

theorem jsRound_gt (x : ℚ) : (jsRound x : ℚ) > x - 1/2 := by
  unfold jsRound
  have := Int.sub_one_lt_floor (x + 1/2)
  linarith

/-- Counterexample to C9 as stated: with base delay 999.6 ms, mode
`Fast` (multiplier 1), error multiplier 1.5 and three recent 429s, the
clamped product is 1499.4 ms but `Math.round` returns 1499, which is
*below* the product — the "result ≥ base × modeMultiplier ×
errorMultiplier (clamped)" bound fails on fractional products. -/
theorem calculateDelay_ge_product_counterexample :
    ¬ ((calculateDelay .Fast
          { baseDelayMs := 4998/5
            dynamicAdjustment := true
            deepDiveMultiplier := 12/10
            balancedMultiplier := 11/10
            quickMultiplier := 1
            errorThreshold := 3
            errorMultiplier := 15/10 }
          [999000, 999100, 999200] 1000000 : ℚ) ≥
        min ((4998/5 : ℚ) * 1 * (15/10)) 20000) := by
  have hcount : getRecentErrorCount [999000, 999100, 999200] 1000000 = 3 := by decide
  have hval : calculateDelay .Fast
      { baseDelayMs := 4998/5
        dynamicAdjustment := true
        deepDiveMultiplier := 12/10
        balancedMultiplier := 11/10
        quickMultiplier := 1
        errorThreshold := 3
        errorMultiplier := 15/10 }
      [999000, 999100, 999200] 1000000 = 1499 := by
    unfold calculateDelay
    rw [hcount]
    simp only [modeAdjustedBase]
    norm_num [jsRound]
  rw [hval]
  norm_num

/-- **C9 (amended).** For every recorded history and configuration the
suggested delay is at most the 20000 ms maximum; with dynamic
adjustment enabled and at least `errorThreshold` rate-limit events in
the last five minutes, the result is exactly `Math.round` of
`baseDelay × modeMultiplier × errorMultiplier` clamped to 20000 —
hence strictly above the clamped product minus ½ ms, and equal to the
clamped product whenever it is a whole number of milliseconds (as with
the default configuration). -/
theorem calculateDelay_bounds :
    (∀ (mode : ResearchMode) (config : ApiIntervalConfig) (hist : List ℤ) (now : ℤ),
        calculateDelay mode config hist now ≤ 20000) ∧
    (∀ (mode : ResearchMode) (config : ApiIntervalConfig) (hist : List ℤ) (now : ℤ),
        config.dynamicAdjustment = true →
        config.errorThreshold ≤ getRecentErrorCount hist now →
        calculateDelay mode config hist now =
          jsRound (min (config.baseDelayMs * modeMultiplier mode config *
            config.errorMultiplier) 20000) ∧
        (calculateDelay mode config hist now : ℚ) >
          min (config.baseDelayMs * modeMultiplier mode config *
            config.errorMultiplier) 20000 - 1/2 ∧
        (∀ k : ℤ,
          min (config.baseDelayMs * modeMultiplier mode config *
            config.errorMultiplier) 20000 = (k : ℚ) →
          calculateDelay mode config hist now = k)) := by
  constructor
  · intro mode config hist now
    unfold calculateDelay
    have h1 : jsRound (20000 : ℚ) = 20000 := by
      have := jsRound_intCast 20000
      norm_num at this ⊢
      exact this
    calc jsRound _ ≤ jsRound (20000 : ℚ) := jsRound_le_of_le (min_le_right _ _)
      _ = 20000 := h1
  · intro mode config hist now hdyn hth
    have hred : calculateDelay mode config hist now =
        jsRound (min (config.baseDelayMs * modeMultiplier mode config *
          config.errorMultiplier) 20000) := by
      unfold calculateDelay
      rw [hdyn]
      simp only [if_true, if_pos hth, modeAdjustedBase_eq]
    refine ⟨hred, ?_, ?_⟩
    · rw [hred]
      exact jsRound_gt _
    · intro k hk
      rw [hred, hk, jsRound_intCast]

/-- Witness for C9 (amended): default configuration, `DeepDive` mode,
three recent 429s — the product 15000 × 1.2 × 1.5 = 27000 clamps to
20000 exactly. -/
theorem calculateDelay_bounds_witness :
    calculateDelay .DeepDive defaultApiIntervalConfig [999000, 999100, 999200] 1000000 =
      20000 := by
  have h := calculateDelay_bounds.2 .DeepDive defaultApiIntervalConfig
    [999000, 999100, 999200] 1000000 rfl (by decide)
  exact h.2.2 20000 (by norm_num [defaultApiIntervalConfig, modeMultiplier])

/-! ## Execution layer (`executeWithRetry`, src/services/geminiClient.ts)

One logical request = up to `keys.length × 2` attempts. Each attempt's
interaction with `fetch` and the response body is an oracle input
(`FetchResult`), together with the value of `userSignal?.aborted`
observed when the attempt's error reaches the `catch` block. Errors
carry the fields the loop inspects: `name === 'AbortError'`, the clean
message, the HTTP `status`, and the `RetryInfo.retryDelay` detail.
`getNextApiKey` (from `apiKeyService`, not part of the published
sources; §4.1 of the spec specifies round-robin rotation) always
yields a credential for a non-empty pool, so the `if (!key) continue`
guard never fires and only the pool size enters the budget. The
model-name/operation validation before the loop always passes for the
`generateContent` entry point and is elided. -/

/-- The classified data of a thrown attempt error, as the `catch`
block observes it: `getCleanErrorMessage` applied to the errors thrown
inside the loop returns their plain `message` (none of them carries a
JSON-encoded message), so `message` here is already the clean text. -/
structure PendingError where
  isAbort : Bool
  message : String
  status : Option Nat
  retryDelay : Option String
deriving Repr, DecidableEq

/-- Oracle outcome of one attempt's `fetch` + body handling:
the fetch itself threw (`AbortError` from the combined signal, or a
network failure such as `Failed to fetch`); a non-ok HTTP response
with `status` and optional `RetryInfo.retryDelay` detail; an ok
response whose body is not valid JSON; or an ok JSON response with the
extracted primary text (possibly empty). -/
inductive FetchResult where
  | fetchThrew (isAbort : Bool) (msg : String)
  | httpError (status : Nat) (msg : String) (retryDelay : Option String)
  | badJson
  | okText (text : String)
deriving Repr, DecidableEq

/-- Per-attempt oracle input: the fetch outcome plus the value of
`userSignal?.aborted` at the time the attempt's error is handled. -/
structure AttemptInput where
  fetch : FetchResult
  userAborted : Bool
deriving Repr, DecidableEq

/-- The `try` block of one attempt: converts the oracle outcome into
either the successful response text or the thrown error. A well-formed
reply whose text is empty after trimming throws
`'Empty response from API'`. -/
def runAttempt : FetchResult → Except PendingError String
  | .fetchThrew ab msg => .error ⟨ab, msg, none, none⟩
  | .httpError s msg rd => .error ⟨false, msg, some s, rd⟩
  | .badJson => .error ⟨false, "Failed to parse JSON response", none, none⟩
  | .okText t =>
      if jsTrim t = "" then .error ⟨false, "Empty response from API", none, none⟩
      else .ok t

/-- `error.status >= 500 && error.status < 600` (false when `status`
is undefined). -/
def PendingError.isServerError (e : PendingError) : Bool :=
  match e.status with
  | some s => decide (500 ≤ s) && decide (s < 600)
  | none => false

def PendingError.isRateLimit (e : PendingError) : Bool :=
  e.status == some 429

def PendingError.isEmptyResponse (e : PendingError) : Bool :=
  e.message == "Empty response from API"

def PendingError.isJsonParseError (e : PendingError) : Bool :=
  e.message == "Failed to parse JSON response"

/-- The guard of the backoff branch: server errors, rate limits,
`Failed to fetch` network errors, empty responses and JSON parse
failures are retried with a delay; any other error just falls through
to the next attempt with no delay. -/
def PendingError.isRetryableClass (e : PendingError) : Bool :=
  e.isServerError || e.isRateLimit || e.message == "Failed to fetch" ||
    e.isEmptyResponse || e.isJsonParseError

def maxRetriesPerKeyCycle : Nat := 2

/-- First maximal digit run of a string — the JS regex `/(\d+)/` match
used on `retryInfo.retryDelay`. -/
def firstDigitRun : List Char → Option (List Char)
  | [] => none
  | c :: rest =>
      if c.isDigit then some (c :: rest.takeWhile Char.isDigit)
      else firstDigitRun rest

/-- `parseInt(_, 10)` on a digit run. -/
def parseDigits (l : List Char) : Nat :=
  l.foldl (fun n c => n * 10 + (c.toNat - '0'.toNat)) 0

/-- The backoff delay slept before the next attempt, or `none` when
the error class gets no delay: base 5000 ms for server errors, 3000 ms
otherwise, doubled per retry already spent on the current credential
(`(attempt−1) % 2`), plus jitter in `[0, 1000)`; a rate limit carrying
a parseable `retryDelay` uses the server-suggested seconds × 1000 +
500 ms instead. -/
def backoffDelay (e : PendingError) (attempt : Nat) (jitter : ℚ) : Option ℚ :=
  if e.isRetryableClass then
    let retriesOnThisKey := (attempt - 1) % maxRetriesPerKeyCycle
    let baseDelay : ℚ := if e.isServerError then 5000 else 3000
    let delayMs := baseDelay * 2 ^ retriesOnThisKey + jitter
    some (if e.isRateLimit then
            match e.retryDelay with
            | some rd =>
                match firstDigitRun rd.data with
                | some ds => (parseDigits ds : ℚ) * 1000 + 500
                | none => delayMs
            | none => delayMs
          else delayMs)
  else none

/-- Whether the attempt's error handling calls
`apiIntervalManager.record429Error()` (inside the retryable branch,
before the delay is chosen, so independent of which delay is used). -/
def records429 (e : PendingError) : Bool :=
  e.isRetryableClass && e.isRateLimit

/-- Observable event of one attempt. -/
inductive AttemptEvent where
  | succeeded (text : String)
  | cancelled (e : PendingError)
  | failed (e : PendingError) (delay : Option ℚ) (recorded429 : Bool)
deriving Repr, DecidableEq

inductive ExecResult where
  | success (text : String)
  | cancelled (e : PendingError)
  | allKeysFailed (message : String)
  | noKeys
deriving Repr, DecidableEq

/-- `getCleanErrorMessage(lastError)` at the end of the loop: `null`
yields the unknown-error text. -/
def cleanMessageOf : Option PendingError → String
  | some e => e.message
  | none => "An unknown error occurred."

def allKeysFailedMessage (lastError : Option PendingError) : String :=
  "All API keys failed. Last error: " ++ cleanMessageOf lastError

/-- The attempt loop of `executeWithRetry`, one step per attempt:
success returns the text; an `AbortError` with the user signal fired
is re-thrown (cancellation); every other error records its backoff
event and continues with the next attempt; an exhausted budget throws
`AllKeysFailedError` naming the last error. Attempts are numbered from
1; `fuel` is the remaining attempt budget. -/
def retryLoop (inputs : Nat → AttemptInput) (jitter : Nat → ℚ) :
    Nat → Nat → Option PendingError → List AttemptEvent × ExecResult
  | 0, _, lastError => ([], .allKeysFailed (allKeysFailedMessage lastError))
  | fuel + 1, attempt, _ =>
      match runAttempt (inputs attempt).fetch with
      | .ok t => ([.succeeded t], .success t)
      | .error e =>
          if e.isAbort && (inputs attempt).userAborted then
            ([.cancelled e], .cancelled e)
          else
            let ev := AttemptEvent.failed e (backoffDelay e attempt (jitter attempt))
              (records429 e)
            let rest := retryLoop inputs jitter fuel (attempt + 1) (some e)
            (ev :: rest.1, rest.2)

/-- `executeWithRetry`: empty credential pool fails up front;
otherwise the budget is `keys.length × maxRetriesPerKeyCycle`
attempts. Returns the trace of attempt events with the outcome. -/
def executeWithRetry (keys : List String) (inputs : Nat → AttemptInput)
    (jitter : Nat → ℚ) : List AttemptEvent × ExecResult :=
  if keys.length = 0 then ([], .noKeys)
  else retryLoop inputs jitter (keys.length * maxRetriesPerKeyCycle) 1 none

/-! ### Step lemmas for the attempt loop -/

theorem retryLoop_success_step (inputs : Nat → AttemptInput) (jitter : Nat → ℚ)
    (fuel attempt : Nat) (lastErr : Option PendingError) (t : String)
    (he : runAttempt (inputs attempt).fetch = .ok t) :
    retryLoop inputs jitter (fuel + 1) attempt lastErr = ([.succeeded t], .success t) := by
  simp [retryLoop, he]

theorem retryLoop_cancel_step (inputs : Nat → AttemptInput) (jitter : Nat → ℚ)
    (fuel attempt : Nat) (lastErr : Option PendingError) (e : PendingError)
    (he : runAttempt (inputs attempt).fetch = .error e)
    (hc : (e.isAbort && (inputs attempt).userAborted) = true) :
    retryLoop inputs jitter (fuel + 1) attempt lastErr = ([.cancelled e], .cancelled e) := by
  simp [retryLoop, he, hc]

theorem retryLoop_failed_step (inputs : Nat → AttemptInput) (jitter : Nat → ℚ)
    (fuel attempt : Nat) (lastErr : Option PendingError) (e : PendingError)
    (he : runAttempt (inputs attempt).fetch = .error e)
    (hnc : (e.isAbort && (inputs attempt).userAborted) = false) :
    retryLoop inputs jitter (fuel + 1) attempt lastErr =
      (.failed e (backoffDelay e attempt (jitter attempt)) (records429 e) ::
          (retryLoop inputs jitter fuel (attempt + 1) (some e)).1,
        (retryLoop inputs jitter fuel (attempt + 1) (some e)).2) := by
  simp [retryLoop, he, hnc]

theorem retryLoop_length_pos (inputs : Nat → AttemptInput) (jitter : Nat → ℚ)
    (fuel attempt : Nat) (lastErr : Option PendingError) :
    1 ≤ (retryLoop inputs jitter (fuel + 1) attempt lastErr).1.length := by
  cases he : runAttempt (inputs attempt).fetch with
  | ok t => simp [retryLoop_success_step inputs jitter fuel attempt lastErr t he]
  | error e =>
      cases hc : (e.isAbort && (inputs attempt).userAborted) with
      | true => simp [retryLoop_cancel_step inputs jitter fuel attempt lastErr e he hc]
      | false => simp [retryLoop_failed_step inputs jitter fuel attempt lastErr e he hc]

/-- **C1.** With a credential pool of size 2 and the fixed
per-credential retry count of 2, a request whose every attempt fails
with a server error (5xx) makes exactly 4 attempts — every one a
retried failure, none escaping as an individual error — and then
fails with the aggregate `AllKeysFailedError` naming the last
underlying error's message. -/
theorem execute_all_server_errors_exhausts_budget
    (keys : List String) (inputs : Nat → AttemptInput) (jitter : Nat → ℚ)
    (s : Nat → Nat) (msg : Nat → String) (rd : Nat → Option String)
    (hkeys : keys.length = 2)
    (hfetch : ∀ i, (inputs i).fetch = .httpError (s i) (msg i) (rd i))
    (hrange : ∀ i, 500 ≤ s i ∧ s i < 600) :
    (executeWithRetry keys inputs jitter).1.length = 4 ∧
    (∀ ev ∈ (executeWithRetry keys inputs jitter).1,
      ∃ e d r, ev = AttemptEvent.failed e d r ∧ PendingError.isRetryableClass e = true) ∧
    (executeWithRetry keys inputs jitter).2 =
      .allKeysFailed ("All API keys failed. Last error: " ++ msg 4) := by
  have he : ∀ i, runAttempt (inputs i).fetch =
      .error ⟨false, msg i, some (s i), rd i⟩ := by
    intro i
    rw [hfetch i]
    rfl
  have hretry : ∀ i, (⟨false, msg i, some (s i), rd i⟩ : PendingError).isRetryableClass = true := by
    intro i
    simp [PendingError.isRetryableClass, PendingError.isServerError, decide_eq_true_eq,
      (hrange i).1, (hrange i).2]
  have hne : ¬ keys.length = 0 := by omega
  have hbudget : keys.length * maxRetriesPerKeyCycle = 3 + 1 := by
    rw [hkeys]
    rfl
  have s1 := retryLoop_failed_step inputs jitter 2 2 (some ⟨false, msg 1, some (s 1), rd 1⟩)
    ⟨false, msg 2, some (s 2), rd 2⟩ (he 2) rfl
  have s2 := retryLoop_failed_step inputs jitter 1 3 (some ⟨false, msg 2, some (s 2), rd 2⟩)
    ⟨false, msg 3, some (s 3), rd 3⟩ (he 3) rfl
  have s3 := retryLoop_failed_step inputs jitter 0 4 (some ⟨false, msg 3, some (s 3), rd 3⟩)
    ⟨false, msg 4, some (s 4), rd 4⟩ (he 4) rfl
  have s0 := retryLoop_failed_step inputs jitter 3 1 none
    ⟨false, msg 1, some (s 1), rd 1⟩ (he 1) rfl
  have hrun : executeWithRetry keys inputs jitter =
      ([.failed ⟨false, msg 1, some (s 1), rd 1⟩
          (backoffDelay ⟨false, msg 1, some (s 1), rd 1⟩ 1 (jitter 1))
          (records429 ⟨false, msg 1, some (s 1), rd 1⟩),
        .failed ⟨false, msg 2, some (s 2), rd 2⟩
          (backoffDelay ⟨false, msg 2, some (s 2), rd 2⟩ 2 (jitter 2))
          (records429 ⟨false, msg 2, some (s 2), rd 2⟩),
        .failed ⟨false, msg 3, some (s 3), rd 3⟩
          (backoffDelay ⟨false, msg 3, some (s 3), rd 3⟩ 3 (jitter 3))
          (records429 ⟨false, msg 3, some (s 3), rd 3⟩),
        .failed ⟨false, msg 4, some (s 4), rd 4⟩
          (backoffDelay ⟨false, msg 4, some (s 4), rd 4⟩ 4 (jitter 4))
          (records429 ⟨false, msg 4, some (s 4), rd 4⟩)],
       .allKeysFailed ("All API keys failed. Last error: " ++ msg 4)) := by
    unfold executeWithRetry
    rw [if_neg hne, hbudget, s0, s1, s2, s3]
    simp [retryLoop, allKeysFailedMessage, cleanMessageOf]
  refine ⟨?_, ?_, ?_⟩
  · rw [hrun]
    rfl
  · rw [hrun]
    intro ev hev
    simp only [List.mem_cons, List.not_mem_nil, or_false] at hev
    rcases hev with h | h | h | h
    · exact ⟨_, _, _, h, hretry 1⟩
    · exact ⟨_, _, _, h, hretry 2⟩
    · exact ⟨_, _, _, h, hretry 3⟩
    · exact ⟨_, _, _, h, hretry 4⟩
  · rw [hrun]

/-- Witness for C1: two keys, every attempt answering 503. -/
theorem execute_all_server_errors_exhausts_budget_witness :
    (executeWithRetry ["k1", "k2"]
        (fun _ => ⟨.httpError 503 "Service Unavailable" none, false⟩) (fun _ => 0)).1.length =
      4 ∧
    (executeWithRetry ["k1", "k2"]
        (fun _ => ⟨.httpError 503 "Service Unavailable" none, false⟩) (fun _ => 0)).2 =
      .allKeysFailed "All API keys failed. Last error: Service Unavailable" := by
  have h := execute_all_server_errors_exhausts_budget ["k1", "k2"]
    (fun _ => ⟨.httpError 503 "Service Unavailable" none, false⟩) (fun _ => 0)
    (fun _ => 503) (fun _ => "Service Unavailable") (fun _ => none)
    rfl (fun _ => rfl) (fun _ => ⟨by norm_num, by norm_num⟩)
  exact ⟨h.1, h.2.2⟩

/-- If attempts `attempt, …, attempt+n−1` fail without triggering the
abort check and attempt `attempt+n` fails with an abort error while
the user signal is fired, the loop stops at exactly `n+1` attempts
with the cancellation outcome. -/
theorem retryLoop_cancel_at (inputs : Nat → AttemptInput) (jitter : Nat → ℚ) :
    ∀ (n fuel attempt : Nat) (lastErr : Option PendingError),
    n + 1 ≤ fuel →
    (∀ i, attempt ≤ i → i < attempt + n →
        ∃ e, runAttempt (inputs i).fetch = .error e ∧
          (e.isAbort && (inputs i).userAborted) = false) →
    (∃ e, runAttempt (inputs (attempt + n)).fetch = .error e ∧
        (e.isAbort && (inputs (attempt + n)).userAborted) = true) →
    (retryLoop inputs jitter fuel attempt lastErr).1.length = n + 1 ∧
    ∃ e, runAttempt (inputs (attempt + n)).fetch = .error e ∧
      (retryLoop inputs jitter fuel attempt lastErr).2 = .cancelled e := by
  intro n
  induction n with
  | zero =>
      intro fuel attempt lastErr hfuel hprev hcanc
      obtain ⟨f, rfl⟩ : ∃ f, fuel = f + 1 := ⟨fuel - 1, by omega⟩
      obtain ⟨e, he, hc⟩ := hcanc
      simp only [Nat.add_zero] at he hc
      rw [retryLoop_cancel_step inputs jitter f attempt lastErr e he hc]
      exact ⟨rfl, e, by simpa using he, rfl⟩
  | succ n ih =>
      intro fuel attempt lastErr hfuel hprev hcanc
      obtain ⟨f, rfl⟩ : ∃ f, fuel = f + 1 := ⟨fuel - 1, by omega⟩
      obtain ⟨e, he, hne⟩ := hprev attempt (le_refl _) (by omega)
      rw [retryLoop_failed_step inputs jitter f attempt lastErr e he hne]
      have hshift : attempt + 1 + n = attempt + (n + 1) := by omega
      have hprev' : ∀ i, attempt + 1 ≤ i → i < attempt + 1 + n →
          ∃ e, runAttempt (inputs i).fetch = .error e ∧
            (e.isAbort && (inputs i).userAborted) = false := by
        intro i h1 h2
        exact hprev i (by omega) (by omega)
      have hcanc' : ∃ e, runAttempt (inputs (attempt + 1 + n)).fetch = .error e ∧
          (e.isAbort && (inputs (attempt + 1 + n)).userAborted) = true := by
        rw [hshift]
        exact hcanc
      obtain ⟨hlen, e', he', hres⟩ := ih f (attempt + 1) (some e) (by omega) hprev' hcanc'
      rw [hshift] at he'
      refine ⟨?_, e', he', ?_⟩
      · simp only [List.length_cons, hlen]
      · simpa using hres

/-- Counterexample to C2 as stated: the cancellation check fires only
on an `AbortError`. With one credential (budget 2), attempt 1 fails
with a server error while the user signal has *already fired*
(`userSignal.aborted = true` in the catch); the loop does not stop —
attempt 2 runs and even returns success. So "signal has fired ⇒
immediate failure with zero further attempts" is false. -/
theorem execute_cancel_needs_abort_error_counterexample :
    ((fun i => if i = 1 then AttemptInput.mk (.httpError 500 "Internal error" none) true
        else AttemptInput.mk (.okText "done") true) 1).userAborted = true ∧
    (executeWithRetry ["k1"]
        (fun i => if i = 1 then AttemptInput.mk (.httpError 500 "Internal error" none) true
          else AttemptInput.mk (.okText "done") true)
        (fun _ => 0)).1.length = 2 ∧
    (executeWithRetry ["k1"]
        (fun i => if i = 1 then AttemptInput.mk (.httpError 500 "Internal error" none) true
          else AttemptInput.mk (.okText "done") true)
        (fun _ => 0)).2 = .success "done" := by
  refine ⟨rfl, ?_, ?_⟩ <;>
  · have h1 := retryLoop_failed_step
      (fun i => if i = 1 then AttemptInput.mk (.httpError 500 "Internal error" none) true
        else AttemptInput.mk (.okText "done") true) (fun _ => 0) 1 1 none
      ⟨false, "Internal error", some 500, none⟩ rfl rfl
    have h2 := retryLoop_success_step
      (fun i => if i = 1 then AttemptInput.mk (.httpError 500 "Internal error" none) true
        else AttemptInput.mk (.okText "done") true) (fun _ => 0) 0 2
      (some ⟨false, "Internal error", some 500, none⟩) "done" rfl
    simp only [executeWithRetry, List.length_singleton, Nat.mul_one, maxRetriesPerKeyCycle]
    rw [show (1 : Nat) * 2 = 1 + 1 from rfl, h1, h2]
    rfl

/-- **C2 (amended).** Cancellation short-circuits the loop exactly
when a failed attempt's error is an abort error (`name ===
'AbortError'`) with the user signal fired — the observable outcome
whenever the signal fires while the request is in flight: the loop
stops immediately with the cancellation error after that attempt,
regardless of remaining budget. A fired signal whose attempt failed
with any *other* error class does not short-circuit (see the
counterexample), and every non-abort error leads to another attempt
while budget remains — another attempt is always made. -/
theorem execute_cancellation_short_circuits :
    (∀ (keys : List String) (inputs : Nat → AttemptInput) (jitter : Nat → ℚ) (k : Nat),
      1 ≤ k → k ≤ keys.length * maxRetriesPerKeyCycle →
      (∀ i, 1 ≤ i → i < k → ∃ e, runAttempt (inputs i).fetch = .error e ∧
          (e.isAbort && (inputs i).userAborted) = false) →
      (∃ e, runAttempt (inputs k).fetch = .error e ∧
          (e.isAbort && (inputs k).userAborted) = true) →
      (executeWithRetry keys inputs jitter).1.length = k ∧
      ∃ e, runAttempt (inputs k).fetch = .error e ∧
        (executeWithRetry keys inputs jitter).2 = .cancelled e) ∧
    (∀ (inputs : Nat → AttemptInput) (jitter : Nat → ℚ) (fuel attempt : Nat)
        (lastErr : Option PendingError) (e : PendingError),
      runAttempt (inputs attempt).fetch = .error e →
      (e.isAbort && (inputs attempt).userAborted) = false →
      2 ≤ (retryLoop inputs jitter (fuel + 1 + 1) attempt lastErr).1.length) := by
  constructor
  · intro keys inputs jitter k hk1 hk2 hprev hcanc
    have hne : ¬ keys.length = 0 := by
      intro h0
      rw [h0] at hk2
      omega
    have hk : k = 1 + (k - 1) := by omega
    have hprev' : ∀ i, 1 ≤ i → i < 1 + (k - 1) →
        ∃ e, runAttempt (inputs i).fetch = .error e ∧
          (e.isAbort && (inputs i).userAborted) = false := by
      intro i h1 h2
      exact hprev i h1 (by omega)
    have hcanc' : ∃ e, runAttempt (inputs (1 + (k - 1))).fetch = .error e ∧
        (e.isAbort && (inputs (1 + (k - 1))).userAborted) = true := by
      rw [← hk]
      exact hcanc
    obtain ⟨hlen, e, he, hres⟩ := retryLoop_cancel_at inputs jitter (k - 1)
      (keys.length * maxRetriesPerKeyCycle) 1 none (by omega) hprev' hcanc'
    unfold executeWithRetry
    rw [if_neg hne]
    refine ⟨by omega, e, ?_, hres⟩
    rw [hk]
    exact he
  · intro inputs jitter fuel attempt lastErr e he hnc
    rw [retryLoop_failed_step inputs jitter (fuel + 1) attempt lastErr e he hnc]
    have := retryLoop_length_pos inputs jitter fuel (attempt + 1) (some e)
    simp only [List.length_cons]
    omega

/-- Witness for C2 (amended): attempt 1 fails with a server error,
attempt 2 aborts with the user signal fired — the run stops after
exactly 2 of its 4 budgeted attempts, with the abort error. -/
theorem execute_cancellation_short_circuits_witness :
    (executeWithRetry ["k1", "k2"]
        (fun i => if i = 1 then AttemptInput.mk (.httpError 500 "Internal error" none) false
          else AttemptInput.mk (.fetchThrew true "The user aborted a request.") true)
        (fun _ => 0)).1.length = 2 ∧
    (executeWithRetry ["k1", "k2"]
        (fun i => if i = 1 then AttemptInput.mk (.httpError 500 "Internal error" none) false
          else AttemptInput.mk (.fetchThrew true "The user aborted a request.") true)
        (fun _ => 0)).2 = .cancelled ⟨true, "The user aborted a request.", none, none⟩ := by
  have h := execute_cancellation_short_circuits.1 ["k1", "k2"]
    (fun i => if i = 1 then AttemptInput.mk (.httpError 500 "Internal error" none) false
      else AttemptInput.mk (.fetchThrew true "The user aborted a request.") true)
    (fun _ => 0) 2 (by omega) (by norm_num [maxRetriesPerKeyCycle])
    (by
      intro i h1 h2
      have hi : i = 1 := by omega
      subst hi
      exact ⟨⟨false, "Internal error", some 500, none⟩, rfl, rfl⟩)
    ⟨⟨true, "The user aborted a request.", none, none⟩, rfl, rfl⟩
  obtain ⟨hlen, e, he, hres⟩ := h
  have h2 : runAttempt ((fun i =>
      if i = 1 then AttemptInput.mk (.httpError 500 "Internal error" none) false
      else AttemptInput.mk (.fetchThrew true "The user aborted a request.") true) 2).fetch =
      Except.error (⟨true, "The user aborted a request.", none, none⟩ : PendingError) := rfl
  rw [h2] at he
  have he' : e = ⟨true, "The user aborted a request.", none, none⟩ :=
    ((Except.error.injEq _ _).mp he).symm
  rw [he'] at hres
  exact ⟨hlen, hres⟩

/-- **C7.** Backoff policy of a failed retryable attempt: base 5000 ms
for server errors and 3000 ms for every other retryable class,
multiplied by `2^((attempt−1) mod 2)` (the retry index within the
current credential's cycle), plus the jitter; a rate-limited failure
carrying a parseable server-suggested `retryDelay` uses that interval
(seconds × 1000) plus the fixed 500 ms buffer instead of the
exponential delay; every rate-limited failure is recorded in the
rate-adaptation tracker regardless of which delay was chosen; and the
attempt loop emits exactly these values for each failed attempt. -/
theorem execute_backoff_policy :
    (∀ (e : PendingError) (attempt : Nat) (j : ℚ),
      e.isRetryableClass = true → e.isRateLimit = false →
      backoffDelay e attempt j =
        some ((if e.isServerError then (5000 : ℚ) else 3000) *
          2 ^ ((attempt - 1) % maxRetriesPerKeyCycle) + j)) ∧
    (∀ (e : PendingError) (attempt : Nat) (j : ℚ) (rd : String) (ds : List Char),
      e.isRateLimit = true → e.retryDelay = some rd → firstDigitRun rd.data = some ds →
      backoffDelay e attempt j = some ((parseDigits ds : ℚ) * 1000 + 500)) ∧
    (∀ (e : PendingError) (attempt : Nat) (j : ℚ),
      e.isRateLimit = true → e.retryDelay = none →
      backoffDelay e attempt j =
        some ((3000 : ℚ) * 2 ^ ((attempt - 1) % maxRetriesPerKeyCycle) + j)) ∧
    (∀ e : PendingError, e.isRateLimit = true → records429 e = true) ∧
    (∀ (inputs : Nat → AttemptInput) (jitter : Nat → ℚ) (fuel attempt : Nat)
        (lastErr : Option PendingError) (e : PendingError),
      runAttempt (inputs attempt).fetch = .error e →
      (e.isAbort && (inputs attempt).userAborted) = false →
      (retryLoop inputs jitter (fuel + 1) attempt lastErr).1.head? =
        some (.failed e (backoffDelay e attempt (jitter attempt)) (records429 e))) := by
  have hrlRetryable : ∀ e : PendingError, e.isRateLimit = true → e.isRetryableClass = true := by
    intro e h
    simp [PendingError.isRetryableClass, h]
  have hrlNotServer : ∀ e : PendingError, e.isRateLimit = true → e.isServerError = false := by
    intro e h
    have hst : e.status = some 429 := by
      simpa [PendingError.isRateLimit] using h
    simp [PendingError.isServerError, hst]
  refine ⟨?_, ?_, ?_, ?_, ?_⟩
  · intro e attempt j hretry hrl
    simp [backoffDelay, hretry, hrl]
  · intro e attempt j rd ds hrl hrd hds
    simp [backoffDelay, hrlRetryable e hrl, hrl, hrd, hds]
  · intro e attempt j hrl hrd
    simp [backoffDelay, hrlRetryable e hrl, hrl, hrd, hrlNotServer e hrl]
  · intro e hrl
    simp [records429, hrlRetryable e hrl, hrl]
  · intro inputs jitter fuel attempt lastErr e he hnc
    rw [retryLoop_failed_step inputs jitter fuel attempt lastErr e he hnc]
    rfl

/-- Witness for C7: a 503 at attempt 1 with jitter 0 backs off 5000 ms
(and records nothing); a 429 carrying `retryDelay "17s"` uses 17500 ms
and is recorded; a 429 without `RetryInfo` at attempt 2 backs off
3000·2 = 6000 ms and is still recorded. -/
theorem execute_backoff_policy_witness :
    backoffDelay ⟨false, "Internal", some 503, none⟩ 1 0 = some 5000 ∧
    backoffDelay ⟨false, "Quota", some 429, some "17s"⟩ 1 0 = some 17500 ∧
    backoffDelay ⟨false, "Quota", some 429, none⟩ 2 0 = some 6000 ∧
    records429 ⟨false, "Quota", some 429, some "17s"⟩ = true ∧
    records429 ⟨false, "Quota", some 429, none⟩ = true := by
  have h1 := execute_backoff_policy.1 ⟨false, "Internal", some 503, none⟩ 1 0 (by decide) (by decide)
  have h2 := execute_backoff_policy.2.1 ⟨false, "Quota", some 429, some "17s"⟩ 1 0 "17s"
    ['1', '7'] (by decide) rfl (by decide)
  have h3 := execute_backoff_policy.2.2.1 ⟨false, "Quota", some 429, none⟩ 2 0 (by decide) rfl
  have h4 := execute_backoff_policy.2.2.2.1 ⟨false, "Quota", some 429, some "17s"⟩ (by decide)
  have h5 := execute_backoff_policy.2.2.2.1 ⟨false, "Quota", some 429, none⟩ (by decide)
  refine ⟨?_, ?_, ?_, h4, h5⟩
  · rw [h1]
    norm_num [PendingError.isServerError, maxRetriesPerKeyCycle]
  · rw [h2]
    have hpd : parseDigits ['1', '7'] = 17 := by decide
    rw [hpd]
    norm_num
  · rw [h3]
    norm_num [maxRetriesPerKeyCycle]

/-- **C8.** A syntactically valid reply succeeds exactly when its
primary text is non-empty after trimming — and success can only arise
from such a reply; a well-formed reply with empty or whitespace-only
text throws `'Empty response from API'`, which is classified as a
retryable non-server class (3000 ms base); in the loop such an attempt
is a retried failure — another attempt follows while budget remains —
rather than being returned to the caller. -/
theorem execute_empty_response_retried :
    (∀ t : String, runAttempt (.okText t) = .ok t ↔ jsTrim t ≠ "") ∧
    (∀ (f : FetchResult) (t : String), runAttempt f = .ok t → f = .okText t ∧ jsTrim t ≠ "") ∧
    (∀ t : String, jsTrim t = "" →
      runAttempt (.okText t) = .error ⟨false, "Empty response from API", none, none⟩) ∧
    ((⟨false, "Empty response from API", none, none⟩ : PendingError).isRetryableClass = true ∧
      (⟨false, "Empty response from API", none, none⟩ : PendingError).isServerError = false) ∧
    (∀ (inputs : Nat → AttemptInput) (jitter : Nat → ℚ) (fuel attempt : Nat)
        (lastErr : Option PendingError) (t : String),
      (inputs attempt).fetch = .okText t → jsTrim t = "" →
      (retryLoop inputs jitter (fuel + 1 + 1) attempt lastErr).1.head? =
        some (.failed ⟨false, "Empty response from API", none, none⟩
          (backoffDelay ⟨false, "Empty response from API", none, none⟩ attempt (jitter attempt))
          (records429 ⟨false, "Empty response from API", none, none⟩)) ∧
      2 ≤ (retryLoop inputs jitter (fuel + 1 + 1) attempt lastErr).1.length) := by
  have hrun : ∀ t : String, jsTrim t = "" →
      runAttempt (.okText t) = .error ⟨false, "Empty response from API", none, none⟩ := by
    intro t ht
    simp [runAttempt, ht]
  refine ⟨?_, ?_, hrun, ⟨by decide, by decide⟩, ?_⟩
  · intro t
    constructor
    · intro h ht
      rw [runAttempt, if_pos ht] at h
      exact Except.noConfusion h
    · intro ht
      rw [runAttempt, if_neg ht]
  · intro f t h
    cases f with
    | fetchThrew ab m => exact absurd h (by simp [runAttempt])
    | httpError s m r => exact absurd h (by simp [runAttempt])
    | badJson => exact absurd h (by simp [runAttempt])
    | okText t' =>
        by_cases ht : jsTrim t' = ""
        · rw [runAttempt, if_pos ht] at h
          exact Except.noConfusion h
        · rw [runAttempt, if_neg ht] at h
          obtain rfl : t' = t := (Except.ok.injEq _ _).mp h
          exact ⟨rfl, ht⟩
  · intro inputs jitter fuel attempt lastErr t hf ht
    have he : runAttempt (inputs attempt).fetch =
        .error ⟨false, "Empty response from API", none, none⟩ := by
      rw [hf]
      exact hrun t ht
    rw [retryLoop_failed_step inputs jitter (fuel + 1) attempt lastErr _ he rfl]
    have := retryLoop_length_pos inputs jitter fuel (attempt + 1)
      (some ⟨false, "Empty response from API", none, none⟩)
    constructor
    · rfl
    · simp only [List.length_cons]
      omega

/-- Witness for C8: a whitespace-only reply at attempt 1 with budget 2
is retried — the trace shows a failed (not succeeded) first event and
a second attempt happens. -/
theorem execute_empty_response_retried_witness :
    runAttempt (.okText "  ") =
      .error ⟨false, "Empty response from API", none, none⟩ ∧
    (retryLoop (fun _ => ⟨.okText "  ", false⟩) (fun _ => 0) 2 1 none).1.head? =
      some (.failed ⟨false, "Empty response from API", none, none⟩
        (backoffDelay ⟨false, "Empty response from API", none, none⟩ 1 0)
        (records429 ⟨false, "Empty response from API", none, none⟩)) ∧
    2 ≤ (retryLoop (fun _ => ⟨.okText "  ", false⟩) (fun _ => 0) 2 1 none).1.length := by
  have h1 := execute_empty_response_retried.2.2.1 "  " (by decide)
  have h2 := execute_empty_response_retried.2.2.2.2 (fun _ => ⟨.okText "  ", false⟩)
    (fun _ => 0) 0 1 none "  " rfl (by decide)
  exact ⟨h1, h2.1, h2.2⟩

/-! ## Negotiation engine (`generateAcademicOutline`, src/services/search.ts,
defensive variant)

The turn-based two-persona outline debate. Each LLM call is an oracle
reply carrying the raw response text and the result of
`parseJsonFromMarkdown` on it (`utils.ts` is not part of the published
sources; §9 of the spec describes the parse as
`Parsed(Turn) | Unparseable`, so the parsed value is part of the
oracle input). Prompt construction and file attachments do not affect
control flow and are elided; the caller's signal is modelled as a
constant (`signalAborted`) checked at the top of each debate round —
with a constant signal the per-attempt checks are equivalent. -/

structure AcademicOutlineTurn where
  thought : String
  action : String
  outline_section : Option String := none
  final_outline : Option String := none
deriving Repr, DecidableEq

inductive Persona
  | Alpha
  | Beta
deriving Repr, DecidableEq

def Persona.flip : Persona → Persona
  | .Alpha => .Beta
  | .Beta => .Alpha

/-- Oracle reply to one debate-turn LLM call: the response text plus
what `parseJsonFromMarkdown` makes of it (`none` for unparseable; a
parsed object may still carry an empty `thought`, which the code
treats as invalid). -/
structure TurnReply where
  text : String
  parsed : Option AcademicOutlineTurn
deriving Repr, DecidableEq

/-- JS truthiness of `parsedResponse.final_outline`. -/
def jsTruthy : Option String → Bool
  | some s => s ≠ ""
  | none => false

/-- `const maxTurnRetries = 2` — in-place attempts per debate turn. -/
def maxTurnRetries : Nat := 2

/-- The in-place retry loop of one debate turn (`for turnAttempt in
1..maxTurnRetries`): an empty response text or an unparseable/
thought-less parse consumes the attempt, sleeping 3000 ms after
attempt 1 (the 6000 ms value is selected only for `turnAttempt ≠ 1`,
unreachable with 2 attempts); a valid parse breaks out. Returns the
parsed turn (if any), the number of LLM calls consumed, and the list
of retry delays slept. `fuel` counts the attempts remaining. -/
def turnRetry (replies : Nat → TurnReply) :
    Nat → Nat → Nat → Option AcademicOutlineTurn × Nat × List ℚ
  | _, _, 0 => (none, 0, [])
  | callIdx, turnAttempt, fuel + 1 =>
      let r := replies callIdx
      let failCont :=
        let d : List ℚ :=
          if turnAttempt < maxTurnRetries then
            [if turnAttempt = 1 then 3000 else 6000]
          else []
        let rest := turnRetry replies (callIdx + 1) (turnAttempt + 1) fuel
        (rest.1, rest.2.1 + 1, d ++ rest.2.2)
      if jsTrim r.text = "" then failCont
      else
        match r.parsed with
        | none => failCont
        | some t => if t.thought = "" then failCont else (some t, 1, [])

/-- Mutable state of the debate loop. `callIdx` doubles as the count
of scripted LLM calls consumed so far (calls are numbered from 0). -/
structure DebState where
  debateTurns : Nat
  callIdx : Nat
  conversation : List (Persona × String)
  nextPersona : Persona
  observer : List (Persona × String)
  delays : List ℚ
deriving Repr, DecidableEq

inductive DebateOutcome where
  | finalized (outline : String)
  | exhausted
  | aborted
deriving Repr, DecidableEq

/-- The `while (debateTurns < maxDebateRounds)` loop. One round:
check the signal; `debateTurns++`; run the in-place turn retries; on
total failure `debateTurns++` *again*, flip persona and continue; on
an accepted turn append to the conversation, report it to the
observer, return the artifact if it finalizes with a truthy
`final_outline`, else flip persona and continue. `fuel = N` suffices
from the initial state since every round raises `debateTurns` by at
least 1. -/
def debateLoop (replies : Nat → TurnReply) (N : Nat) (signalAborted : Bool) :
    Nat → DebState → DebateOutcome × DebState
  | 0, st => (.exhausted, st)
  | fuel + 1, st =>
      if st.debateTurns < N then
        if signalAborted then (.aborted, st)
        else
          let st₁ := { st with debateTurns := st.debateTurns + 1 }
          let tr := turnRetry replies st₁.callIdx 1 maxTurnRetries
          let st₂ := { st₁ with callIdx := st₁.callIdx + tr.2.1,
                                delays := st₁.delays ++ tr.2.2 }
          match tr.1 with
          | none =>
              debateLoop replies N signalAborted fuel
                { st₂ with debateTurns := st₂.debateTurns + 1,
                           nextPersona := st₂.nextPersona.flip }
          | some t =>
              let st₃ := { st₂ with
                conversation := st₂.conversation ++ [(st₂.nextPersona, t.thought)],
                observer := st₂.observer ++ [(st₂.nextPersona, t.thought)] }
              if t.action = "finalize_outline" && jsTruthy t.final_outline then
                (.finalized (t.final_outline.getD ""), st₃)
              else
                debateLoop replies N signalAborted fuel
                  { st₃ with nextPersona := st₃.nextPersona.flip }
      else (.exhausted, st)

inductive OutlineResult where
  | finalized (outline : String)
  | fallback (text : String)
  | fallbackFailed
  | aborted
deriving Repr, DecidableEq

/-- Observable outcome of one engine run: the result, the observer
(`onDebateUpdate`) invocations in order, the number of scripted
debate-turn LLM calls, the number of fallback synthesis calls, and the
in-place retry delays slept. -/
structure EngineRun where
  result : OutlineResult
  observer : List (Persona × String)
  scriptedCalls : Nat
  fallbackCalls : Nat
  turnRetryDelays : List ℚ
deriving Repr, DecidableEq

def DebState.init : DebState :=
  { debateTurns := 0, callIdx := 0, conversation := [], nextPersona := .Alpha,
    observer := [], delays := [] }

/-- `generateAcademicOutline` (defensive variant): run the debate
loop; a finalized turn returns its artifact directly; an exhausted
budget issues exactly one fallback single-shot synthesis call whose
trimmed text is the result — an empty fallback reply is a fatal
error. -/
def generateAcademicOutline (N : Nat) (replies : Nat → TurnReply)
    (fallbackText : String) (signalAborted : Bool) : EngineRun :=
  let r := debateLoop replies N signalAborted N DebState.init
  match r.1 with
  | .aborted => ⟨.aborted, r.2.observer, r.2.callIdx, 0, r.2.delays⟩
  | .finalized o => ⟨.finalized o, r.2.observer, r.2.callIdx, 0, r.2.delays⟩
  | .exhausted =>
      if fallbackText = "" then
        ⟨.fallbackFailed, r.2.observer, r.2.callIdx, 1, r.2.delays⟩
      else
        ⟨.fallback (jsTrim fallbackText), r.2.observer, r.2.callIdx, 1, r.2.delays⟩

/-! ### Step lemmas for the debate loop -/

/-- A reply the turn loop rejects: empty text, unparseable, or a
parse with an empty `thought`. -/
def turnFails (r : TurnReply) : Prop :=
  jsTrim r.text = "" ∨ r.parsed = none ∨ ∃ t, r.parsed = some t ∧ t.thought = ""

theorem turnRetry_fails_step (replies : Nat → TurnReply) (c ta fuel : Nat)
    (h : turnFails (replies c)) :
    turnRetry replies c ta (fuel + 1) =
      ((turnRetry replies (c + 1) (ta + 1) fuel).1,
       (turnRetry replies (c + 1) (ta + 1) fuel).2.1 + 1,
       (if ta < maxTurnRetries then [if ta = 1 then (3000 : ℚ) else 6000] else []) ++
         (turnRetry replies (c + 1) (ta + 1) fuel).2.2) := by
  rcases h with h | h | ⟨t, hp, hth⟩
  · simp [turnRetry, h]
  · by_cases ht : jsTrim (replies c).text = ""
    · simp [turnRetry, ht]
    · simp [turnRetry, ht, h]
  · by_cases ht : jsTrim (replies c).text = ""
    · simp [turnRetry, ht]
    · simp [turnRetry, ht, hp, hth]

theorem turnRetry_fail2 (replies : Nat → TurnReply) (c : Nat)
    (h1 : turnFails (replies c)) (h2 : turnFails (replies (c + 1))) :
    turnRetry replies c 1 maxTurnRetries = (none, 2, [(3000 : ℚ)]) := by
  rw [show maxTurnRetries = 1 + 1 from rfl]
  rw [turnRetry_fails_step replies c 1 1 h1]
  rw [turnRetry_fails_step replies (c + 1) 2 0 h2]
  simp [turnRetry, maxTurnRetries]

theorem turnRetry_accept (replies : Nat → TurnReply) (c ta fuel : Nat)
    (t : AcademicOutlineTurn)
    (ht : ¬ jsTrim (replies c).text = "") (hp : (replies c).parsed = some t)
    (hth : ¬ t.thought = "") :
    turnRetry replies c ta (fuel + 1) = (some t, 1, []) := by
  simp [turnRetry, ht, hp, hth]

theorem debateLoop_fail_step (replies : Nat → TurnReply) (N fuel : Nat) (st : DebState)
    (hguard : st.debateTurns < N)
    (h1 : turnFails (replies st.callIdx)) (h2 : turnFails (replies (st.callIdx + 1))) :
    debateLoop replies N false (fuel + 1) st =
      debateLoop replies N false fuel
        { st with debateTurns := st.debateTurns + 2, callIdx := st.callIdx + 2,
                  delays := st.delays ++ [(3000 : ℚ)],
                  nextPersona := st.nextPersona.flip } := by
  have htr := turnRetry_fail2 replies st.callIdx h1 h2
  simp only [debateLoop, if_pos hguard, Bool.false_eq_true, if_false, htr]

theorem debateLoop_accept_step (replies : Nat → TurnReply) (N fuel : Nat) (st : DebState)
    (t : AcademicOutlineTurn)
    (hguard : st.debateTurns < N)
    (ht : ¬ jsTrim (replies st.callIdx).text = "")
    (hp : (replies st.callIdx).parsed = some t)
    (hth : ¬ t.thought = "") :
    debateLoop replies N false (fuel + 1) st =
      (if (t.action = "finalize_outline" && jsTruthy t.final_outline) = true then
        (.finalized (t.final_outline.getD ""),
         { st with debateTurns := st.debateTurns + 1, callIdx := st.callIdx + 1,
                   conversation := st.conversation ++ [(st.nextPersona, t.thought)],
                   observer := st.observer ++ [(st.nextPersona, t.thought)] })
      else
        debateLoop replies N false fuel
          { st with debateTurns := st.debateTurns + 1, callIdx := st.callIdx + 1,
                    conversation := st.conversation ++ [(st.nextPersona, t.thought)],
                    observer := st.observer ++ [(st.nextPersona, t.thought)],
                    nextPersona := st.nextPersona.flip }) := by
  have htr : turnRetry replies st.callIdx 1 maxTurnRetries = (some t, 1, []) := by
    rw [show maxTurnRetries = 1 + 1 from rfl]
    exact turnRetry_accept replies st.callIdx 1 1 t ht hp hth
  simp only [debateLoop, if_pos hguard, Bool.false_eq_true, if_false, htr, List.append_nil]

/-- Running the debate loop against a source whose every reply is
rejected: the loop exhausts the budget two rounds per iteration,
consuming 2 calls and one 3000 ms retry delay per iteration and never
touching the observer. -/
theorem debateLoop_allFail (replies : Nat → TurnReply)
    (hfail : ∀ i, turnFails (replies i)) (N : Nat) :
    ∀ (fuel : Nat) (st : DebState), N ≤ fuel + st.debateTurns →
    (debateLoop replies N false fuel st).1 = .exhausted ∧
    (debateLoop replies N false fuel st).2.callIdx =
      st.callIdx + 2 * ((N - st.debateTurns + 1) / 2) ∧
    (debateLoop replies N false fuel st).2.observer = st.observer ∧
    (debateLoop replies N false fuel st).2.delays =
      st.delays ++ List.replicate ((N - st.debateTurns + 1) / 2) (3000 : ℚ) := by
  intro fuel
  induction fuel with
  | zero =>
      intro st hle
      have hr : N - st.debateTurns = 0 := by omega
      simp [debateLoop, hr]
  | succ fuel ih =>
      intro st hle
      by_cases hguard : st.debateTurns < N
      · rw [debateLoop_fail_step replies N fuel st hguard (hfail _) (hfail _)]
        obtain ⟨ho, hc, hob, hd⟩ := ih
          { st with debateTurns := st.debateTurns + 2, callIdx := st.callIdx + 2,
                    delays := st.delays ++ [(3000 : ℚ)],
                    nextPersona := st.nextPersona.flip }
          (by show N ≤ fuel + (st.debateTurns + 2); omega)
        refine ⟨ho, ?_, hob, ?_⟩
        · rw [hc]
          show st.callIdx + 2 + 2 * ((N - (st.debateTurns + 2) + 1) / 2) =
            st.callIdx + 2 * ((N - st.debateTurns + 1) / 2)
          omega
        · rw [hd]
          show (st.delays ++ [(3000 : ℚ)]) ++
              List.replicate ((N - (st.debateTurns + 2) + 1) / 2) (3000 : ℚ) =
            st.delays ++ List.replicate ((N - st.debateTurns + 1) / 2) (3000 : ℚ)
          have hK : (N - st.debateTurns + 1) / 2 =
              (N - (st.debateTurns + 2) + 1) / 2 + 1 := by omega
          rw [hK, List.append_assoc, List.replicate_succ]
          rfl
      · have hr : N - st.debateTurns = 0 := by omega
        simp [debateLoop, hguard, hr]

/-- Reduction of the engine when the debate loop exhausts the budget
and the fallback call returns non-empty text. -/
theorem generateAcademicOutline_exhausted_eq (N : Nat) (replies : Nat → TurnReply)
    (fallbackText : String) (sig : Bool)
    (h : (debateLoop replies N sig N DebState.init).1 = .exhausted)
    (hfb : ¬ fallbackText = "") :
    generateAcademicOutline N replies fallbackText sig =
      ⟨.fallback (jsTrim fallbackText),
       (debateLoop replies N sig N DebState.init).2.observer,
       (debateLoop replies N sig N DebState.init).2.callIdx, 1,
       (debateLoop replies N sig N DebState.init).2.delays⟩ := by
  unfold generateAcademicOutline
  rcases hpair : debateLoop replies N sig N DebState.init with ⟨o, s⟩
  rw [hpair] at h
  have ho : o = DebateOutcome.exhausted := h
  subst ho
  simp [hfb]

/-- Reduction of the engine when a debate turn finalizes. -/
theorem generateAcademicOutline_finalized_eq (N : Nat) (replies : Nat → TurnReply)
    (fallbackText : String) (sig : Bool) (out : String)
    (h : (debateLoop replies N sig N DebState.init).1 = .finalized out) :
    generateAcademicOutline N replies fallbackText sig =
      ⟨.finalized out,
       (debateLoop replies N sig N DebState.init).2.observer,
       (debateLoop replies N sig N DebState.init).2.callIdx, 0,
       (debateLoop replies N sig N DebState.init).2.delays⟩ := by
  unfold generateAcademicOutline
  rcases hpair : debateLoop replies N sig N DebState.init with ⟨o, s⟩
  rw [hpair] at h
  have ho : o = DebateOutcome.finalized out := h
  subst ho
  rfl

/-- Counterexample to C3 as stated: with round budget N = 3 and a
turn source that never returns valid JSON, the engine makes **4**
scripted calls — exceeding the claimed bound of N scripted turns —
because a failed turn decrements the budget *twice* (once at the top
of the round and once on the skip), not once. -/
theorem debate_allFail_budget_counterexample :
    (generateAcademicOutline 3 (fun _ => ⟨"x", none⟩) "OUTLINE" false).scriptedCalls = 4 ∧
    ¬ (generateAcademicOutline 3 (fun _ => ⟨"x", none⟩) "OUTLINE" false).scriptedCalls ≤ 3 ∧
    (generateAcademicOutline 3 (fun _ => ⟨"x", none⟩) "OUTLINE" false).fallbackCalls = 1 ∧
    (generateAcademicOutline 3 (fun _ => ⟨"x", none⟩) "OUTLINE" false).result =
      .fallback "OUTLINE" := by
  refine ⟨?_, ?_, ?_, ?_⟩ <;> decide

/-- **C3 (amended).** With round budget N and a turn source that never
returns valid JSON (or always returns empty text), each debate
iteration consumes **two** rounds of budget — one at the top of the
round and one on the skip — flips the persona, sleeps the single 3000
ms in-place retry delay (the 6000 ms branch is unreachable with 2
attempts), and continues without aborting. The engine therefore runs
⌈N/2⌉ iterations making `2·⌈N/2⌉` scripted calls (exactly N for even
N, N+1 for odd N), never invokes the observer, and then issues exactly
one fallback single-shot synthesis call whose trimmed text is the
result. -/
theorem generateAcademicOutline_allFail_terminates
    (N : Nat) (replies : Nat → TurnReply) (fallbackText : String)
    (hfb : fallbackText ≠ "") (hfail : ∀ i, turnFails (replies i)) :
    generateAcademicOutline N replies fallbackText false =
      ⟨.fallback (jsTrim fallbackText), [], 2 * ((N + 1) / 2), 1,
        List.replicate ((N + 1) / 2) (3000 : ℚ)⟩ ∧
    (∀ (fuel : Nat) (st : DebState), st.debateTurns < N →
      debateLoop replies N false (fuel + 1) st =
        debateLoop replies N false fuel
          { st with debateTurns := st.debateTurns + 2, callIdx := st.callIdx + 2,
                    delays := st.delays ++ [(3000 : ℚ)],
                    nextPersona := st.nextPersona.flip }) := by
  constructor
  · obtain ⟨ho, hc, hob, hd⟩ := debateLoop_allFail replies hfail N N DebState.init
      (by show N ≤ N + 0; omega)
    rw [generateAcademicOutline_exhausted_eq N replies fallbackText false ho hfb]
    rw [hc, hob, hd]
    show EngineRun.mk _ DebState.init.observer
        (DebState.init.callIdx + 2 * ((N - DebState.init.debateTurns + 1) / 2)) 1
        (DebState.init.delays ++
          List.replicate ((N - DebState.init.debateTurns + 1) / 2) (3000 : ℚ)) = _
    simp [DebState.init]
  · intro fuel st hguard
    exact debateLoop_fail_step replies N fuel st hguard (hfail _) (hfail _)

/-- Witness for C3 (amended): budget 20 (the default
`maxDebateRounds`), every reply unparseable — 20 scripted calls, one
fallback returning the trimmed fallback text, ten 3-second delays. -/
theorem generateAcademicOutline_allFail_terminates_witness :
    generateAcademicOutline 20 (fun _ => ⟨"x", none⟩) " OUTLINE " false =
      ⟨.fallback "OUTLINE", [], 20, 1, List.replicate 10 (3000 : ℚ)⟩ := by
  have h := (generateAcademicOutline_allFail_terminates 20 (fun _ => ⟨"x", none⟩)
    " OUTLINE " (by decide) (fun i => Or.inr (Or.inl rfl))).1
  rw [h]
  have ht : jsTrim " OUTLINE " = "OUTLINE" := by decide
  rw [ht]

/-- **C4.** With budget at least 4, a scripted source where Alpha
always continues and Beta finalizes with a non-empty artifact on its
second turn: the engine terminates after exactly 4 scripted calls (so
in at most 4 turns), returns exactly Beta's second-turn artifact, the
observer is invoked exactly once per accepted turn (four times, in
turn order), no fallback call is made and no retry delay is slept. -/
theorem generateAcademicOutline_scripted_finalize
    (N : Nat) (replies : Nat → TurnReply) (fallbackText : String)
    (t₁ t₂ t₃ t₄ : AcademicOutlineTurn) (artifact : String)
    (hN : 4 ≤ N)
    (ht : ∀ i, i < 4 → ¬ jsTrim (replies i).text = "")
    (h₁ : (replies 0).parsed = some t₁) (ha₁ : t₁.action = "continue_debate")
    (hth₁ : ¬ t₁.thought = "")
    (h₂ : (replies 1).parsed = some t₂) (ha₂ : t₂.action = "continue_debate")
    (hth₂ : ¬ t₂.thought = "")
    (h₃ : (replies 2).parsed = some t₃) (ha₃ : t₃.action = "continue_debate")
    (hth₃ : ¬ t₃.thought = "")
    (h₄ : (replies 3).parsed = some t₄) (ha₄ : t₄.action = "finalize_outline")
    (hth₄ : ¬ t₄.thought = "") (hf₄ : t₄.final_outline = some artifact)
    (hart : artifact ≠ "") :
    generateAcademicOutline N replies fallbackText false =
      ⟨.finalized artifact,
       [(.Alpha, t₁.thought), (.Beta, t₂.thought), (.Alpha, t₃.thought), (.Beta, t₄.thought)],
       4, 0, []⟩ := by
  obtain ⟨m, rfl⟩ : ∃ m, N = m + 4 := ⟨N - 4, by omega⟩
  have hdl : debateLoop replies (m + 4) false (m + 4) DebState.init =
      (.finalized artifact,
       { debateTurns := 4, callIdx := 4,
         conversation := [(Persona.Alpha, t₁.thought), (.Beta, t₂.thought),
           (.Alpha, t₃.thought), (.Beta, t₄.thought)],
         nextPersona := .Beta,
         observer := [(Persona.Alpha, t₁.thought), (.Beta, t₂.thought),
           (.Alpha, t₃.thought), (.Beta, t₄.thought)],
         delays := [] }) := by
    have hc₁ : (decide (t₁.action = "finalize_outline") && jsTruthy t₁.final_outline) = false := by
      rw [ha₁]
      simp
    have hc₂ : (decide (t₂.action = "finalize_outline") && jsTruthy t₂.final_outline) = false := by
      rw [ha₂]
      simp
    have hc₃ : (decide (t₃.action = "finalize_outline") && jsTruthy t₃.final_outline) = false := by
      rw [ha₃]
      simp
    have hc₄ : (decide (t₄.action = "finalize_outline") && jsTruthy t₄.final_outline) = true := by
      rw [ha₄, hf₄]
      simp [jsTruthy, hart]
    rw [show m + 4 = (m + 3) + 1 from rfl]
    rw [debateLoop_accept_step replies ((m + 3) + 1) (m + 3) DebState.init t₁
      (by show 0 < m + 3 + 1; omega) (ht 0 (by omega)) h₁ hth₁]
    simp only [hc₁, Bool.false_eq_true, if_false]
    rw [show m + 3 = (m + 2) + 1 from rfl]
    rw [debateLoop_accept_step replies ((m + 2) + 1 + 1) (m + 2) _ t₂
      (by show 0 + 1 < m + 2 + 1 + 1; omega) (ht 1 (by omega)) h₂ hth₂]
    simp only [hc₂, Bool.false_eq_true, if_false]
    rw [show m + 2 = (m + 1) + 1 from rfl]
    rw [debateLoop_accept_step replies ((m + 1) + 1 + 1 + 1) (m + 1) _ t₃
      (by show 0 + 1 + 1 < m + 1 + 1 + 1 + 1; omega) (ht 2 (by omega)) h₃ hth₃]
    simp only [hc₃, Bool.false_eq_true, if_false]
    rw [debateLoop_accept_step replies (m + 1 + 1 + 1 + 1) m _ t₄
      (by show 0 + 1 + 1 + 1 < m + 1 + 1 + 1 + 1; omega) (ht 3 (by omega)) h₄ hth₄]
    simp only [hc₄, if_true]
    rw [hf₄]
    simp [Persona.flip, DebState.init]
  rw [generateAcademicOutline_finalized_eq (m + 4) replies fallbackText false artifact
    (by rw [hdl])]
  rw [hdl]

/-- Witness for C4: the concrete scripted run with the default budget
20 finalizes with Beta's second-turn artifact after 4 calls, with one
observer invocation per accepted turn. -/
theorem generateAcademicOutline_scripted_finalize_witness :
    generateAcademicOutline 20
      (fun i =>
        if i = 0 then ⟨"j", some ⟨"a1", "continue_debate", none, none⟩⟩
        else if i = 1 then ⟨"j", some ⟨"b1", "continue_debate", none, none⟩⟩
        else if i = 2 then ⟨"j", some ⟨"a2", "continue_debate", none, none⟩⟩
        else ⟨"j", some ⟨"b2", "finalize_outline", none, some "ART"⟩⟩)
      "FB" false =
      ⟨.finalized "ART",
       [(.Alpha, "a1"), (.Beta, "b1"), (.Alpha, "a2"), (.Beta, "b2")], 4, 0, []⟩ := by
  exact generateAcademicOutline_scripted_finalize 20 _ "FB"
    ⟨"a1", "continue_debate", none, none⟩ ⟨"b1", "continue_debate", none, none⟩
    ⟨"a2", "continue_debate", none, none⟩ ⟨"b2", "finalize_outline", none, some "ART"⟩
    "ART" (by omega)
    (by intro i hi; interval_cases i <;> decide)
    rfl rfl (by decide) rfl rfl (by decide) rfl rfl (by decide) rfl rfl (by decide)
    rfl (by decide)

end KResearch
